/-
  Verification of the paper-trading engine (simulator.py, db.py) of the
  polymarket-sol-strategy repository.

  Python floats are modelled as rationals; Python's `round(x, n)`
  (round-half-to-even on the scaled value) is modelled exactly on ℚ.
-/
import Mathlib

namespace Polysim

/-! ## Python rounding on rationals -/

/-- Python's `round` to the nearest integer: round-half-to-even. -/
def pyRoundInt (q : ℚ) : ℤ :=
  let f := ⌊q⌋
  let r := q - f
  if r < 1/2 then f
  else if 1/2 < r then f + 1
  else if f % 2 = 0 then f else f + 1

/-- Python's `round(q, n)`: banker's rounding at `n` decimal places. -/
def pyRound (n : ℕ) (q : ℚ) : ℚ := (pyRoundInt (q * 10 ^ n) : ℚ) / 10 ^ n

/-- `q` is an exact multiple of `10⁻ⁿ` (representable with `n` decimals). -/
def decMul (n : ℕ) (q : ℚ) : Prop := ∃ z : ℤ, q * 10 ^ n = (z : ℚ)

lemma pyRoundInt_intCast (z : ℤ) : pyRoundInt (z : ℚ) = z := by
  simp [pyRoundInt]

lemma pyRound_eq_self {n : ℕ} {q : ℚ} (h : decMul n q) : pyRound n q = q := by
  obtain ⟨z, hz⟩ := h
  have h10 : (10 : ℚ) ^ n ≠ 0 := by positivity
  have hq : q = (z : ℚ) / 10 ^ n := by
    field_simp
    linarith [hz]
  rw [pyRound, hz, pyRoundInt_intCast, hq]

lemma decMul_pyRound (n : ℕ) (q : ℚ) : decMul n (pyRound n q) := by
  refine ⟨pyRoundInt (q * 10 ^ n), ?_⟩
  have h10 : (10 : ℚ) ^ n ≠ 0 := by positivity
  rw [pyRound]
  field_simp

lemma pyRound_idem (n : ℕ) (q : ℚ) : pyRound n (pyRound n q) = pyRound n q :=
  pyRound_eq_self (decMul_pyRound n q)

lemma decMul.add {n : ℕ} {a b : ℚ} (ha : decMul n a) (hb : decMul n b) :
    decMul n (a + b) := by
  obtain ⟨x, hx⟩ := ha
  obtain ⟨y, hy⟩ := hb
  exact ⟨x + y, by push_cast; linarith⟩

lemma decMul.neg {n : ℕ} {a : ℚ} (ha : decMul n a) : decMul n (-a) := by
  obtain ⟨x, hx⟩ := ha
  exact ⟨-x, by push_cast; linarith⟩

lemma decMul.sub {n : ℕ} {a b : ℚ} (ha : decMul n a) (hb : decMul n b) :
    decMul n (a - b) := by
  have := ha.add hb.neg
  simpa [sub_eq_add_neg] using this

lemma decMul_intCast (n : ℕ) (z : ℤ) : decMul n (z : ℚ) :=
  ⟨z * 10 ^ n, by push_cast; ring⟩

lemma decMul_two_to_four {q : ℚ} (h : decMul 2 q) : decMul 4 q := by
  obtain ⟨z, hz⟩ := h
  refine ⟨z * 100, ?_⟩
  push_cast
  have : q * 10 ^ 4 = (q * 10 ^ 2) * 100 := by ring
  rw [this, hz]

/-! ## Data model (simulator.py) -/

/-- Module-level constant `INITIAL_CAPITAL = 100.0`. -/
def INITIAL_CAPITAL : ℚ := 100

/-- Module-level constant `TRADE_PCT = 0.02`. -/
def TRADE_PCT : ℚ := 2/100

/-- Module-level constant `MIN_CONFIDENCE = 65`. -/
def MIN_CONFIDENCE : ℚ := 65

/-- Module-level constant `ENTRY_AFTER_N = 4`. -/
def ENTRY_AFTER_N : ℕ := 4

/-- The `Trade` dataclass. -/
structure Trade where
  id : ℕ
  market : String
  direction : String
  entry_price : ℚ
  shares : ℚ
  bet_size : ℚ
  entry_time : String
  exit_price : Option ℚ := none
  pnl : Option ℚ := none
  status : String := "OPEN"
deriving DecidableEq, Repr

/-- `Trade.close(won, exit_price)`: returns the resolved trade together with
the realized pnl that the Python method returns. -/
def Trade.close (t : Trade) (won : Bool) (exit_price : ℚ) : Trade × ℚ :=
  if won then
    let pnl := pyRound 4 (t.shares * 1 - t.bet_size)
    ({ t with exit_price := some exit_price, pnl := some pnl, status := "WIN" }, pnl)
  else
    let pnl := pyRound 4 (-t.bet_size)
    ({ t with exit_price := some exit_price, pnl := some pnl, status := "LOSS" }, pnl)

/-- The `_signal_streak` dict `{"label": ..., "count": ...}`. -/
structure Streak where
  label : Option String
  count : ℕ
deriving DecidableEq, Repr

/-- The `{label, confidence}` record consumed by `consider_entry`. -/
structure Signal where
  label : String
  confidence : ℚ
deriving DecidableEq, Repr

/-- The `Portfolio` object's state (the `_db` handle is modelled separately). -/
structure Portfolio where
  initial_capital : ℚ
  capital : ℚ
  trade_pct : ℚ
  active_trade : Option Trade
  closed_trades : List Trade
  pnl_history : List ℚ
  trade_counter : ℕ
  signal_streak : Streak
deriving DecidableEq, Repr

/-- `Portfolio.__init__` with the default arguments used by the repository. -/
def initialPortfolio : Portfolio :=
  { initial_capital := INITIAL_CAPITAL
    capital := INITIAL_CAPITAL
    trade_pct := TRADE_PCT
    active_trade := none
    closed_trades := []
    pnl_history := [0]
    trade_counter := 0
    signal_streak := ⟨none, 0⟩ }

/-- The tuple `("UP", "DOWN", "STRONG UP", "STRONG DOWN")` of directional labels. -/
def directionalLabels : List String := ["UP", "DOWN", "STRONG UP", "STRONG DOWN"]

/-- `direction = "UP" if "UP" in label else "DOWN"`: on the four directional
labels, the substring test `"UP" in label` succeeds exactly for `"UP"` and
`"STRONG UP"`. -/
def labelDirection (label : String) : String :=
  if label = "UP" ∨ label = "STRONG UP" then "UP" else "DOWN"

/-- The streak-tracking update applied to a directional signal. -/
def streakUpdate (st : Streak) (direction : String) : Streak :=
  if st.label = some direction then ⟨some direction, st.count + 1⟩
  else ⟨some direction, 1⟩

/-- `Portfolio.consider_entry(signal, market_question, up_price, down_price)`.
`now` stands for the `datetime.utcnow()` timestamp string. Returns the new
portfolio state and the boolean result. -/
def Portfolio.consider_entry (p : Portfolio) (signal : Signal) (market_question : String)
    (up_price down_price : ℚ) (now : String) : Portfolio × Bool :=
  if p.active_trade.isSome then (p, false)
  else if p.capital < 1 then (p, false)
  else if signal.label ∈ directionalLabels then
    let direction := labelDirection signal.label
    let streak := streakUpdate p.signal_streak direction
    let p1 := { p with signal_streak := streak }
    if streak.count < ENTRY_AFTER_N then (p1, false)
    else if signal.confidence < MIN_CONFIDENCE then (p1, false)
    else
      let bet_size := pyRound 2 (p.capital * p.trade_pct)
      let entry_price := if direction = "UP" then up_price else down_price
      if entry_price ≤ 1/100 then (p1, false)
      else
        let shares := pyRound 4 (bet_size / entry_price)
        ({ p1 with
            trade_counter := p.trade_counter + 1
            active_trade := some
              { id := p.trade_counter + 1
                market := market_question
                direction := direction
                entry_price := entry_price
                shares := shares
                bet_size := bet_size
                entry_time := now
                exit_price := none
                pnl := none
                status := "OPEN" }
            signal_streak := ⟨none, 0⟩ }, true)
  else ({ p with signal_streak := ⟨none, 0⟩ }, false)

/-- `Portfolio.close_trade(up_price, down_price, force_winner)`. -/
def Portfolio.close_trade (p : Portfolio) (up_price down_price : ℚ)
    (force_winner : Option Bool) : Portfolio × Option Trade :=
  match p.active_trade with
  | none => (p, none)
  | some trade =>
    let won : Bool :=
      match force_winner with
      | some w => w
      | none =>
        if trade.direction = "UP" then decide (1/2 ≤ up_price)
        else decide (1/2 ≤ down_price)
    let exit_price : ℚ := if won then 1 else 0
    let closed := (trade.close won exit_price).1
    let pnl := (trade.close won exit_price).2
    let capital := pyRound 4 (p.capital + trade.bet_size + pnl)
    let total_pnl := pyRound 4 (capital - p.initial_capital)
    ({ p with
        capital := capital
        closed_trades := p.closed_trades ++ [closed]
        active_trade := none
        signal_streak := ⟨none, 0⟩
        pnl_history := p.pnl_history ++ [pyRound 4 total_pnl] }, some closed)

/-- `Portfolio.cancel_active_trade()`. The streak is NOT reset here. -/
def Portfolio.cancel_active_trade (p : Portfolio) : Portfolio :=
  match p.active_trade with
  | none => p
  | some t =>
    { p with
        closed_trades := p.closed_trades ++ [{ t with status := "CANCELLED" }]
        active_trade := none }

/-- The shape of the dict returned by `db.load_state` / consumed by
`Portfolio.restore`. -/
structure LoadedState where
  capital : ℚ
  initial_capital : ℚ
  pnl_history : List ℚ
  trade_counter : ℕ
  closed_trades : List Trade
deriving DecidableEq, Repr

/-- `Portfolio.restore(saved)`. -/
def Portfolio.restore (p : Portfolio) (saved : LoadedState) : Portfolio :=
  { p with
      capital := saved.capital
      initial_capital := saved.initial_capital
      pnl_history := saved.pnl_history
      trade_counter := saved.trade_counter
      closed_trades := saved.closed_trades }

/-! ## Reachable portfolio states

States obtainable from the default-constructed portfolio through the three
mutating operations. -/

inductive Reachable : Portfolio → Prop
  | base : Reachable initialPortfolio
  | entry (p : Portfolio) (s : Signal) (m : String) (u d : ℚ) (now : String) :
      Reachable p → Reachable (p.consider_entry s m u d now).1
  | close (p : Portfolio) (u d : ℚ) (f : Option Bool) :
      Reachable p → Reachable (p.close_trade u d f).1
  | cancel (p : Portfolio) : Reachable p → Reachable p.cancel_active_trade

/-- Decimal-representability invariant: the capital always carries at most
4 decimals, and an active trade's stake and share count do too. -/
def CapInv (p : Portfolio) : Prop :=
  decMul 4 p.capital ∧
  ∀ t, p.active_trade = some t → decMul 4 t.bet_size ∧ decMul 4 t.shares

/-- Resolution-state invariant on all trades held by a portfolio. -/
def TradeInv (p : Portfolio) : Prop :=
  (∀ t, p.active_trade = some t → t.status = "OPEN" ∧ t.exit_price = none ∧ t.pnl = none) ∧
  (∀ t ∈ p.closed_trades, t.status ≠ "OPEN" ∧
     ((t.status = "WIN" ∨ t.status = "LOSS") ↔ t.exit_price ≠ none) ∧
     ((t.status = "WIN" ∨ t.status = "LOSS") ↔ t.pnl ≠ none))

/-! ## Structural lemmas about the operations -/

/-- The trade constructed in the entry branch of `consider_entry`. -/
def newTrade (p : Portfolio) (s : Signal) (m : String) (u d : ℚ) (now : String) : Trade :=
  { id := p.trade_counter + 1
    market := m
    direction := labelDirection s.label
    entry_price := if labelDirection s.label = "UP" then u else d
    shares := pyRound 4 (pyRound 2 (p.capital * p.trade_pct) /
      if labelDirection s.label = "UP" then u else d)
    bet_size := pyRound 2 (p.capital * p.trade_pct)
    entry_time := now
    exit_price := none
    pnl := none
    status := "OPEN" }

/-- `consider_entry` has exactly four possible outcomes: untouched refusal,
streak-reset refusal, streak-updated refusal, or entry. -/
lemma consider_entry_shape (p : Portfolio) (s : Signal) (m : String) (u d : ℚ) (now : String) :
    p.consider_entry s m u d now = (p, false) ∨
    p.consider_entry s m u d now = ({ p with signal_streak := ⟨none, 0⟩ }, false) ∨
    p.consider_entry s m u d now =
      ({ p with signal_streak := streakUpdate p.signal_streak (labelDirection s.label) }, false) ∨
    p.consider_entry s m u d now =
      ({ p with
          trade_counter := p.trade_counter + 1
          active_trade := some (newTrade p s m u d now)
          signal_streak := ⟨none, 0⟩ }, true) := by
  by_cases h1 : p.active_trade.isSome
  · left
    simp [Portfolio.consider_entry, h1]
  by_cases h2 : p.capital < 1
  · left
    simp [Portfolio.consider_entry, h1, h2]
  by_cases h3 : s.label ∈ directionalLabels
  case neg =>
    right; left
    simp [Portfolio.consider_entry, h1, h2, h3]
  by_cases h4 : (streakUpdate p.signal_streak (labelDirection s.label)).count < ENTRY_AFTER_N
  · right; right; left
    simp [Portfolio.consider_entry, h1, h2, h3, h4]
  by_cases h5 : s.confidence < MIN_CONFIDENCE
  · right; right; left
    simp [Portfolio.consider_entry, h1, h2, h3, h4, h5]
  by_cases h6 : (if labelDirection s.label = "UP" then u else d) ≤ (100:ℚ)⁻¹
  · right; right; left
    simp [Portfolio.consider_entry, h1, h2, h3, h4, h5, h6]
  · right; right; right
    simp [Portfolio.consider_entry, h1, h2, h3, h4, h5, h6, not_le.mp h6, newTrade]

/-- The resolution outcome computed by `close_trade`. -/
def wonOf (t : Trade) (u d : ℚ) (f : Option Bool) : Bool :=
  match f with
  | some w => w
  | none => if t.direction = "UP" then decide (1/2 ≤ u) else decide (1/2 ≤ d)

lemma close_trade_none {p : Portfolio} (u d : ℚ) (f : Option Bool)
    (h : p.active_trade = none) : p.close_trade u d f = (p, none) := by
  simp [Portfolio.close_trade, h]

lemma close_trade_some {p : Portfolio} {t : Trade} (u d : ℚ) (f : Option Bool)
    (h : p.active_trade = some t) :
    p.close_trade u d f =
      (let won := wonOf t u d f
       let closed := (t.close won (if won then 1 else 0)).1
       let pnl := (t.close won (if won then 1 else 0)).2
       let capital := pyRound 4 (p.capital + t.bet_size + pnl)
       ({ p with
          capital := capital
          closed_trades := p.closed_trades ++ [closed]
          active_trade := none
          signal_streak := ⟨none, 0⟩
          pnl_history := p.pnl_history ++ [pyRound 4 (pyRound 4 (capital - p.initial_capital))] },
        some closed)) := by
  simp only [Portfolio.close_trade, h, wonOf]

lemma cancel_none {p : Portfolio} (h : p.active_trade = none) :
    p.cancel_active_trade = p := by
  simp [Portfolio.cancel_active_trade, h]

lemma cancel_some {p : Portfolio} {t : Trade} (h : p.active_trade = some t) :
    p.cancel_active_trade =
      { p with
          closed_trades := p.closed_trades ++ [{ t with status := "CANCELLED" }]
          active_trade := none } := by
  simp [Portfolio.cancel_active_trade, h]

lemma Trade.close_fst (t : Trade) (won : Bool) (ep : ℚ) :
    (t.close won ep).1 =
      { t with
          exit_price := some ep
          pnl := some (if won then pyRound 4 (t.shares * 1 - t.bet_size)
                       else pyRound 4 (-t.bet_size))
          status := if won then "WIN" else "LOSS" } := by
  cases won <;> simp [Trade.close]

lemma Trade.close_snd (t : Trade) (won : Bool) (ep : ℚ) :
    (t.close won ep).2 =
      (if won then pyRound 4 (t.shares * 1 - t.bet_size) else pyRound 4 (-t.bet_size)) := by
  cases won <;> simp [Trade.close]

/-! ## Invariant preservation -/

lemma capInv_base : CapInv initialPortfolio := by
  constructor
  · exact ⟨1000000, by norm_num [initialPortfolio, INITIAL_CAPITAL]⟩
  · intro t ht
    simp [initialPortfolio] at ht

lemma capInv_entry {p : Portfolio} (h : CapInv p) (s : Signal) (m : String) (u d : ℚ)
    (now : String) : CapInv (p.consider_entry s m u d now).1 := by
  obtain ⟨hc, ha⟩ := h
  rcases consider_entry_shape p s m u d now with hs | hs | hs | hs <;>
    rw [hs] <;> refine ⟨hc, ?_⟩
  · exact ha
  · exact ha
  · exact ha
  · intro t ht
    simp only [Option.some.injEq] at ht
    subst ht
    refine ⟨decMul_two_to_four (decMul_pyRound 2 _), decMul_pyRound 4 _⟩

lemma capInv_close {p : Portfolio} (h : CapInv p) (u d : ℚ) (f : Option Bool) :
    CapInv (p.close_trade u d f).1 := by
  obtain ⟨hc, ha⟩ := h
  cases hact : p.active_trade with
  | none =>
    rw [close_trade_none u d f hact]
    exact ⟨hc, ha⟩
  | some t =>
    rw [close_trade_some u d f hact]
    refine ⟨decMul_pyRound 4 _, ?_⟩
    intro t' ht'
    simp at ht'

lemma capInv_cancel {p : Portfolio} (h : CapInv p) : CapInv p.cancel_active_trade := by
  obtain ⟨hc, ha⟩ := h
  cases hact : p.active_trade with
  | none =>
    rw [cancel_none hact]
    exact ⟨hc, ha⟩
  | some t =>
    rw [cancel_some hact]
    refine ⟨hc, ?_⟩
    intro t' ht'
    simp at ht'

lemma reachable_capInv {p : Portfolio} (h : Reachable p) : CapInv p := by
  induction h with
  | base => exact capInv_base
  | entry q s m u d now _ ih => exact capInv_entry ih s m u d now
  | close q u d f _ ih => exact capInv_close ih u d f
  | cancel q _ ih => exact capInv_cancel ih

lemma tradeInv_base : TradeInv initialPortfolio := by
  constructor
  · intro t ht
    simp [initialPortfolio] at ht
  · intro t ht
    simp [initialPortfolio] at ht

lemma tradeInv_entry {p : Portfolio} (h : TradeInv p) (s : Signal) (m : String) (u d : ℚ)
    (now : String) : TradeInv (p.consider_entry s m u d now).1 := by
  obtain ⟨ha, hcl⟩ := h
  rcases consider_entry_shape p s m u d now with hs | hs | hs | hs <;> rw [hs]
  · exact ⟨ha, hcl⟩
  · exact ⟨ha, hcl⟩
  · exact ⟨ha, hcl⟩
  · refine ⟨?_, hcl⟩
    intro t ht
    simp only [Option.some.injEq] at ht
    subst ht
    exact ⟨rfl, rfl, rfl⟩

lemma tradeInv_close {p : Portfolio} (h : TradeInv p) (u d : ℚ) (f : Option Bool) :
    TradeInv (p.close_trade u d f).1 := by
  obtain ⟨ha, hcl⟩ := h
  cases hact : p.active_trade with
  | none =>
    rw [close_trade_none u d f hact]
    exact ⟨ha, hcl⟩
  | some t =>
    rw [close_trade_some u d f hact]
    constructor
    · intro t' ht'
      simp at ht'
    · intro t' ht'
      simp only [List.mem_append, List.mem_singleton] at ht'
      rcases ht' with ht' | ht'
      · exact hcl t' ht'
      · subst ht'
        rw [Trade.close_fst]
        cases wonOf t u d f <;> simp

lemma tradeInv_cancel {p : Portfolio} (h : TradeInv p) : TradeInv p.cancel_active_trade := by
  obtain ⟨ha, hcl⟩ := h
  cases hact : p.active_trade with
  | none =>
    rw [cancel_none hact]
    exact ⟨ha, hcl⟩
  | some t =>
    rw [cancel_some hact]
    obtain ⟨-, hex, hpnl⟩ := ha t hact
    constructor
    · intro t' ht'
      simp at ht'
    · intro t' ht'
      simp only [List.mem_append, List.mem_singleton] at ht'
      rcases ht' with ht' | ht'
      · exact hcl t' ht'
      · subst ht'
        simp [hex, hpnl]

lemma reachable_tradeInv {p : Portfolio} (h : Reachable p) : TradeInv p := by
  induction h with
  | base => exact tradeInv_base
  | entry q s m u d now _ ih => exact tradeInv_entry ih s m u d now
  | close q u d f _ ih => exact tradeInv_close ih u d f
  | cancel q _ ih => exact tradeInv_cancel ih

/-- Unfolding of `consider_entry` once the first three guards are settled on a
directional signal. -/
lemma consider_entry_directional {p : Portfolio} {s : Signal} (m : String) (u d : ℚ)
    (now : String) (h1 : p.active_trade = none) (h2 : ¬p.capital < 1)
    (h3 : s.label ∈ directionalLabels) :
    p.consider_entry s m u d now =
      (let streak := streakUpdate p.signal_streak (labelDirection s.label)
       let p1 := { p with signal_streak := streak }
       if streak.count < ENTRY_AFTER_N then (p1, false)
       else if s.confidence < MIN_CONFIDENCE then (p1, false)
       else if (if labelDirection s.label = "UP" then u else d) ≤ 1/100 then (p1, false)
       else ({ p1 with
                trade_counter := p.trade_counter + 1
                active_trade := some (newTrade p s m u d now)
                signal_streak := ⟨none, 0⟩ }, true)) := by
  simp only [Portfolio.consider_entry, h1, Option.isSome_none, Bool.false_eq_true, if_false,
    h2, h3, if_true, newTrade]

/-- Unfolding of `consider_entry` for a non-directional signal passing the
first two guards. -/
lemma consider_entry_nondirectional {p : Portfolio} {s : Signal} (m : String) (u d : ℚ)
    (now : String) (h1 : p.active_trade = none) (h2 : ¬p.capital < 1)
    (h3 : s.label ∉ directionalLabels) :
    p.consider_entry s m u d now = ({ p with signal_streak := ⟨none, 0⟩ }, false) := by
  simp only [Portfolio.consider_entry, h1, Option.isSome_none, Bool.false_eq_true, if_false,
    h2, h3, if_true]

/-! ## Evaluation helpers and a concrete reachable run -/

lemma pyRound_eval {n : ℕ} {q r : ℚ} (hqr : q = r) (z : ℤ) (hz : r * 10 ^ n = z) :
    pyRound n q = r := by
  rw [hqr]
  exact pyRound_eq_self ⟨z, hz⟩

/-- A concrete entering signal. -/
def demoSignal : Signal := ⟨"UP", 99⟩

/-- One tick of the driving loop feeding `consider_entry` fixed inputs. -/
def demoStep (p : Portfolio) : Portfolio :=
  (p.consider_entry demoSignal "m" (1/2) (1/2) "t").1

/-- The portfolio after four consecutive "UP" signals from the default state:
an open trade exists. -/
def demoPortfolio : Portfolio := demoStep (demoStep (demoStep (demoStep initialPortfolio)))

/-- The trade opened in `demoPortfolio`: stake `2.00` at price `0.5`, `4` shares. -/
def demoTrade : Trade :=
  { id := 1, market := "m", direction := "UP", entry_price := 1/2, shares := 4,
    bet_size := 2, entry_time := "t", exit_price := none, pnl := none, status := "OPEN" }

lemma demo1 : demoStep initialPortfolio =
    { initialPortfolio with signal_streak := ⟨some "UP", 1⟩ } := by
  norm_num [demoStep, Portfolio.consider_entry, initialPortfolio, demoSignal,
    directionalLabels, labelDirection, streakUpdate, ENTRY_AFTER_N, MIN_CONFIDENCE,
    INITIAL_CAPITAL, TRADE_PCT]

lemma demo2 : demoStep (demoStep initialPortfolio) =
    { initialPortfolio with signal_streak := ⟨some "UP", 2⟩ } := by
  rw [demo1]
  norm_num [demoStep, Portfolio.consider_entry, initialPortfolio, demoSignal,
    directionalLabels, labelDirection, streakUpdate, ENTRY_AFTER_N, MIN_CONFIDENCE,
    INITIAL_CAPITAL, TRADE_PCT]

lemma demo3 : demoStep (demoStep (demoStep initialPortfolio)) =
    { initialPortfolio with signal_streak := ⟨some "UP", 3⟩ } := by
  rw [demo2]
  norm_num [demoStep, Portfolio.consider_entry, initialPortfolio, demoSignal,
    directionalLabels, labelDirection, streakUpdate, ENTRY_AFTER_N, MIN_CONFIDENCE,
    INITIAL_CAPITAL, TRADE_PCT]

lemma demo4 : demoPortfolio =
    { initialPortfolio with trade_counter := 1, active_trade := some demoTrade } := by
  rw [demoPortfolio, demo3]
  have hbet : pyRound 2 (2 : ℚ) = 2 := pyRound_eval rfl 200 (by norm_num)
  have hsh : pyRound 4 (4 : ℚ) = 4 := pyRound_eval rfl 40000 (by norm_num)
  norm_num [demoStep, Portfolio.consider_entry, initialPortfolio, demoSignal, demoTrade,
    directionalLabels, labelDirection, streakUpdate, ENTRY_AFTER_N, MIN_CONFIDENCE,
    INITIAL_CAPITAL, TRADE_PCT, hbet, hsh]

lemma demoPortfolio_reachable : Reachable demoPortfolio := by
  unfold demoPortfolio demoStep
  exact Reachable.entry _ _ _ _ _ _ (Reachable.entry _ _ _ _ _ _
    (Reachable.entry _ _ _ _ _ _ (Reachable.entry _ _ _ _ _ _ Reachable.base)))

lemma demoPortfolio_active : demoPortfolio.active_trade = some demoTrade := by
  rw [demo4]

/-! ## Stats aggregation (the pnl-related fields of `Portfolio.stats`) -/

/-- Python `max(list, default=d)`. -/
def pyMax (l : List ℚ) (dflt : ℚ) : ℚ :=
  match l with
  | [] => dflt
  | x :: xs => xs.foldl max x

/-- Python `min(list, default=d)`. -/
def pyMin (l : List ℚ) (dflt : ℚ) : ℚ :=
  match l with
  | [] => dflt
  | x :: xs => xs.foldl min x

/-- The generator filter `if t.pnl` of the best/worst aggregation: Python
truthiness keeps a pnl that is neither `None` nor `0.0`. -/
def truthyPnl (t : Trade) : Option ℚ :=
  match t.pnl with
  | some v => if v = 0 then none else some v
  | none => none

/-- The pnl-aggregation fields of the dict returned by `Portfolio.stats`. -/
structure StatsReport where
  realized_pnl : ℚ
  best_trade : ℚ
  worst_trade : ℚ
deriving DecidableEq, Repr

/-- `Portfolio.stats` restricted to its realized-pnl and best/worst fields:
`realized_pnl = sum(t.pnl for t in closed if t.pnl is not None)` (rounded),
`best_trade = round(max((t.pnl for t in closed if t.pnl), default=0), 4)`,
`worst_trade = round(min((t.pnl for t in closed if t.pnl), default=0), 4)`. -/
def Portfolio.stats (p : Portfolio) : StatsReport :=
  let closed := p.closed_trades
  let realized := (closed.filterMap Trade.pnl).sum
  { realized_pnl := pyRound 4 realized
    best_trade := pyRound 4 (pyMax (closed.filterMap truthyPnl) 0)
    worst_trade := pyRound 4 (pyMin (closed.filterMap truthyPnl) 0) }

/-! ## Persistence model (db.py)

The `trades` table is a list of rows with primary key `id`; the
`portfolio_state` table is a single optional row. -/

/-- The single `portfolio_state` row (`id = 1`). -/
structure Snapshot where
  capital : ℚ
  initial_capital : ℚ
  pnl_history : List ℚ
  trade_counter : ℕ
deriving DecidableEq, Repr

/-- The SQLite database contents relevant to `db.py`. -/
structure DB where
  trades : List Trade
  portfolio_state : Option Snapshot
deriving DecidableEq, Repr

/-- A freshly initialized database: both tables empty. -/
def DB.empty : DB := ⟨[], none⟩

/-- `db.save_trade(trade)`: `INSERT OR REPLACE` keyed by `id`. -/
def DB.save_trade (db : DB) (t : Trade) : DB :=
  { db with trades := db.trades.filter (fun r => decide (r.id ≠ t.id)) ++ [t] }

/-- `db.save_portfolio_state(...)`: upsert of the singleton row. -/
def DB.save_portfolio_state (db : DB) (capital initial_capital : ℚ)
    (pnl_history : List ℚ) (trade_counter : ℕ) : DB :=
  { db with portfolio_state := some ⟨capital, initial_capital, pnl_history, trade_counter⟩ }

/-- `ORDER BY id` on trade rows. -/
def tradeIdLe (a b : Trade) : Prop := a.id ≤ b.id

instance : DecidableRel tradeIdLe := fun a b => inferInstanceAs (Decidable (a.id ≤ b.id))

instance : IsTotal Trade tradeIdLe := ⟨fun a b => Nat.le_total a.id b.id⟩

instance : IsTrans Trade tradeIdLe := ⟨fun _ _ _ => Nat.le_trans⟩

/-- `db.load_state()`: snapshot values (or the defaults when the singleton row
is absent) together with `SELECT * FROM trades WHERE status != 'OPEN' ORDER BY id`. -/
def DB.load_state (db : DB) : LoadedState :=
  let closed :=
    (db.trades.filter (fun t => decide (t.status ≠ "OPEN"))).insertionSort tradeIdLe
  match db.portfolio_state with
  | some s =>
    { capital := s.capital
      initial_capital := s.initial_capital
      pnl_history := s.pnl_history
      trade_counter := s.trade_counter
      closed_trades := closed }
  | none =>
    { capital := 100
      initial_capital := 100
      pnl_history := [0]
      trade_counter := 0
      closed_trades := closed }

/-! ## The portfolio driven with a live `_db` handle -/

/-- `consider_entry` with persistence: on entry the freshly opened trade is
saved (`self._db.save_trade(self.active_trade)`). -/
def entryStep (p : Portfolio) (db : DB) (s : Signal) (m : String) (u d : ℚ)
    (now : String) : Portfolio × DB :=
  let r := p.consider_entry s m u d now
  if r.2 then
    (r.1, match r.1.active_trade with
          | some t => db.save_trade t
          | none => db)
  else (r.1, db)

/-- `close_trade` with persistence: on resolution the closed trade and the new
portfolio snapshot are saved. -/
def closeStep (p : Portfolio) (db : DB) (u d : ℚ) (f : Option Bool) : Portfolio × DB :=
  let r := p.close_trade u d f
  match r.2 with
  | some t =>
    (r.1, (db.save_trade t).save_portfolio_state r.1.capital r.1.initial_capital
      r.1.pnl_history r.1.trade_counter)
  | none => (r.1, db)

/-- `cancel_active_trade` with persistence. -/
def cancelStep (p : Portfolio) (db : DB) : Portfolio × DB :=
  match p.active_trade with
  | some t =>
    let p1 := p.cancel_active_trade
    (p1, (db.save_trade { t with status := "CANCELLED" }).save_portfolio_state
      p1.capital p1.initial_capital p1.pnl_history p1.trade_counter)
  | none => (p, db)

/-- Portfolio-with-database states reachable from a fresh start. -/
inductive SysReachable : Portfolio → DB → Prop
  | base : SysReachable initialPortfolio DB.empty
  | entry (p : Portfolio) (db : DB) (s : Signal) (m : String) (u d : ℚ) (now : String) :
      SysReachable p db → SysReachable (entryStep p db s m u d now).1 (entryStep p db s m u d now).2
  | close (p : Portfolio) (db : DB) (u d : ℚ) (f : Option Bool) :
      SysReachable p db → SysReachable (closeStep p db u d f).1 (closeStep p db u d f).2
  | cancel (p : Portfolio) (db : DB) :
      SysReachable p db → SysReachable (cancelStep p db).1 (cancelStep p db).2

/-- Database invariant: before any snapshot has been persisted, every
persisted trade row is still OPEN. -/
def DBInv (db : DB) : Prop :=
  db.portfolio_state = none → ∀ t ∈ db.trades, t.status = "OPEN"

lemma dbInv_save_open {db : DB} (h : DBInv db) {t : Trade} (ht : t.status = "OPEN") :
    DBInv (db.save_trade t) := by
  intro hs t' ht'
  simp only [DB.save_trade, List.mem_append, List.mem_singleton, List.mem_filter] at ht'
  rcases ht' with ⟨ht', -⟩ | ht'
  · exact h hs t' ht'
  · subst ht'
    exact ht

lemma sysReachable_dbInv {p : Portfolio} {db : DB} (h : SysReachable p db) : DBInv db := by
  induction h with
  | base =>
    intro _ t ht
    simp [DB.empty] at ht
  | entry q db s m u d now _ ih =>
    unfold entryStep
    by_cases hr : (q.consider_entry s m u d now).2 = true
    · rcases consider_entry_shape q s m u d now with hs | hs | hs | hs <;>
        rw [hs] at hr ⊢ <;> simp_all
      exact dbInv_save_open ih rfl
    · simp only [Bool.not_eq_true] at hr
      simp [hr, ih]
  | close q db u d f _ ih =>
    unfold closeStep
    cases hact : q.active_trade with
    | none =>
      rw [close_trade_none u d f hact]
      exact ih
    | some t =>
      rw [close_trade_some u d f hact]
      intro hs
      simp [DB.save_portfolio_state] at hs
  | cancel q db _ ih =>
    unfold cancelStep
    cases hact : q.active_trade with
    | none =>
      simpa using ih
    | some t =>
      intro hs
      simp [DB.save_portfolio_state] at hs

lemma consider_entry_of_active {p : Portfolio} {s : Signal} {m : String} {u d : ℚ}
    {now : String} (h : p.active_trade.isSome) :
    p.consider_entry s m u d now = (p, false) := by
  simp [Portfolio.consider_entry, h]

lemma consider_entry_of_lowcap {p : Portfolio} {s : Signal} {m : String} {u d : ℚ}
    {now : String} (h1 : p.active_trade = none) (h2 : p.capital < 1) :
    p.consider_entry s m u d now = (p, false) := by
  simp [Portfolio.consider_entry, h1, h2]

/-- Necessary conditions for `consider_entry` to return true. -/
lemma consider_entry_true_necessary (q : Portfolio) (s : Signal) (m : String) (u d : ℚ)
    (now : String) (h : (q.consider_entry s m u d now).2 = true) :
    ¬s.confidence < MIN_CONFIDENCE ∧
    ¬(streakUpdate q.signal_streak (labelDirection s.label)).count < ENTRY_AFTER_N := by
  by_cases h1 : q.active_trade.isSome
  · rw [consider_entry_of_active h1] at h
    simp at h
  have hnone : q.active_trade = none := Option.not_isSome_iff_eq_none.mp h1
  by_cases h2 : q.capital < 1
  · rw [consider_entry_of_lowcap hnone h2] at h
    simp at h
  by_cases h3 : s.label ∈ directionalLabels
  case neg =>
    rw [consider_entry_nondirectional m u d now hnone h2 h3] at h
    simp at h
  rw [consider_entry_directional m u d now hnone h2 h3] at h
  by_cases h4 : (streakUpdate q.signal_streak (labelDirection s.label)).count < ENTRY_AFTER_N
  · simp [h4] at h
  by_cases h5 : s.confidence < MIN_CONFIDENCE
  · simp [h4, h5] at h
  exact ⟨h5, h4⟩

/-- `n` successive `consider_entry` ticks with a fixed input. -/
def iterEntry (p : Portfolio) (s : Signal) (m : String) (u d : ℚ) (now : String) : ℕ → Portfolio
  | 0 => p
  | k + 1 => ((iterEntry p s m u d now k).consider_entry s m u d now).1

/-! ## Claim theorems -/

/-- C2. At most one active trade: whenever `active_trade` is non-null,
`consider_entry` returns false and leaves the whole portfolio state
(streak included) unchanged; since `active_trade` is a single optional
field, every reachable state holds at most one active trade. -/
theorem consider_entry_blocks_when_active (p : Portfolio) (t : Trade) (s : Signal)
    (m : String) (u d : ℚ) (now : String) (h : p.active_trade = some t) :
    p.consider_entry s m u d now = (p, false) :=
  consider_entry_of_active (by simp [h])

theorem consider_entry_blocks_when_active_witness :
    demoPortfolio.consider_entry ⟨"DOWN", 99⟩ "x" 1 1 "n" = (demoPortfolio, false) :=
  consider_entry_blocks_when_active demoPortfolio demoTrade ⟨"DOWN", 99⟩ "x" 1 1 "n"
    demoPortfolio_active

/-- C3. Streak gate: from an empty streak with no active trade, capital ≥ 1
and a valid price, three consecutive "UP" signals at confidence 99 never
enter, the fourth does; and in general `consider_entry` returns true only
when the updated consecutive count reaches `ENTRY_AFTER_N = 4` and the
signal's confidence is at least `MIN_CONFIDENCE = 65`. -/
theorem streak_gate (p : Portfolio) (m : String) (u d : ℚ) (now : String)
    (hact : p.active_trade = none) (hcap : ¬p.capital < 1)
    (hstreak : p.signal_streak = ⟨none, 0⟩) (hu : 1/100 < u) :
    (∀ k < 3, ((iterEntry p ⟨"UP", 99⟩ m u d now k).consider_entry ⟨"UP", 99⟩ m u d now).2
       = false) ∧
    ((iterEntry p ⟨"UP", 99⟩ m u d now 3).consider_entry ⟨"UP", 99⟩ m u d now).2 = true ∧
    (∀ (q : Portfolio) (s : Signal) (m' : String) (u' d' : ℚ) (n' : String),
       (q.consider_entry s m' u' d' n').2 = true →
       MIN_CONFIDENCE ≤ s.confidence ∧
       ENTRY_AFTER_N ≤ (streakUpdate q.signal_streak (labelDirection s.label)).count) := by
  have hlab : ("UP" : String) ∈ directionalLabels := by simp [directionalLabels]
  have e1 : p.consider_entry ⟨"UP", 99⟩ m u d now =
      ({ p with signal_streak := ⟨some "UP", 1⟩ }, false) := by
    rw [consider_entry_directional m u d now hact hcap hlab]
    norm_num [labelDirection, streakUpdate, hstreak, ENTRY_AFTER_N]
  have e2 : ({ p with signal_streak := ⟨some "UP", 1⟩} : Portfolio).consider_entry
      ⟨"UP", 99⟩ m u d now = ({ p with signal_streak := ⟨some "UP", 2⟩ }, false) := by
    rw [consider_entry_directional (p := { p with signal_streak := ⟨some "UP", 1⟩ })
      m u d now hact hcap hlab]
    norm_num [labelDirection, streakUpdate, ENTRY_AFTER_N]
  have e3 : ({ p with signal_streak := ⟨some "UP", 2⟩} : Portfolio).consider_entry
      ⟨"UP", 99⟩ m u d now = ({ p with signal_streak := ⟨some "UP", 3⟩ }, false) := by
    rw [consider_entry_directional (p := { p with signal_streak := ⟨some "UP", 2⟩ })
      m u d now hact hcap hlab]
    norm_num [labelDirection, streakUpdate, ENTRY_AFTER_N]
  have e4 : (({ p with signal_streak := ⟨some "UP", 3⟩} : Portfolio).consider_entry
      ⟨"UP", 99⟩ m u d now).2 = true := by
    rw [consider_entry_directional (p := { p with signal_streak := ⟨some "UP", 3⟩ })
      m u d now hact hcap hlab]
    norm_num [labelDirection, streakUpdate, ENTRY_AFTER_N, MIN_CONFIDENCE, not_le.mpr hu]
  have i1 : iterEntry p ⟨"UP", 99⟩ m u d now 1 = { p with signal_streak := ⟨some "UP", 1⟩ } := by
    show (p.consider_entry ⟨"UP", 99⟩ m u d now).1 = _
    rw [e1]
  have i2 : iterEntry p ⟨"UP", 99⟩ m u d now 2 = { p with signal_streak := ⟨some "UP", 2⟩ } := by
    show ((iterEntry p ⟨"UP", 99⟩ m u d now 1).consider_entry ⟨"UP", 99⟩ m u d now).1 = _
    rw [i1, e2]
  have i3 : iterEntry p ⟨"UP", 99⟩ m u d now 3 = { p with signal_streak := ⟨some "UP", 3⟩ } := by
    show ((iterEntry p ⟨"UP", 99⟩ m u d now 2).consider_entry ⟨"UP", 99⟩ m u d now).1 = _
    rw [i2, e3]
  refine ⟨?_, ?_, ?_⟩
  · intro k hk
    interval_cases k
    · rw [show iterEntry p ⟨"UP", 99⟩ m u d now 0 = p from rfl, e1]
    · rw [i1, e2]
    · rw [i2, e3]
  · rw [i3, e4]
  · intro q s m' u' d' n' h
    obtain ⟨h1, h2⟩ := consider_entry_true_necessary q s m' u' d' n' h
    exact ⟨not_lt.mp h1, not_lt.mp h2⟩

theorem streak_gate_witness :
    (∀ k < 3, ((iterEntry initialPortfolio ⟨"UP", 99⟩ "m" (1/2) (1/2) "t" k).consider_entry
       ⟨"UP", 99⟩ "m" (1/2) (1/2) "t").2 = false) ∧
    ((iterEntry initialPortfolio ⟨"UP", 99⟩ "m" (1/2) (1/2) "t" 3).consider_entry
       ⟨"UP", 99⟩ "m" (1/2) (1/2) "t").2 = true ∧
    (∀ (q : Portfolio) (s : Signal) (m' : String) (u' d' : ℚ) (n' : String),
       (q.consider_entry s m' u' d' n').2 = true →
       MIN_CONFIDENCE ≤ s.confidence ∧
       ENTRY_AFTER_N ≤ (streakUpdate q.signal_streak (labelDirection s.label)).count) :=
  streak_gate initialPortfolio "m" (1/2) (1/2) "t" rfl (by norm_num [initialPortfolio,
    INITIAL_CAPITAL]) rfl (by norm_num)

/-- The `(up_price, down_price)` pair that puts `price` on the signal's
chosen side and `o` on the other side. -/
def chosenSidePrices (s : Signal) (price o : ℚ) : ℚ × ℚ :=
  if labelDirection s.label = "UP" then (price, o) else (o, price)

/-- The conclusion of the entry-price-boundary claim (C7): with the chosen
side's price at exactly 0.01 the call is refused and no trade is created;
at 0.0101 it is accepted and a trade is created. -/
def EntryBoundaryProp (p : Portfolio) (s : Signal) (m : String) (o : ℚ) (now : String) : Prop :=
  (p.consider_entry s m (chosenSidePrices s (1/100) o).1
     (chosenSidePrices s (1/100) o).2 now).2 = false ∧
  (p.consider_entry s m (chosenSidePrices s (1/100) o).1
     (chosenSidePrices s (1/100) o).2 now).1.active_trade = none ∧
  (p.consider_entry s m (chosenSidePrices s (1/100) o).1
     (chosenSidePrices s (1/100) o).2 now).1.trade_counter = p.trade_counter ∧
  (p.consider_entry s m (chosenSidePrices s (101/10000) o).1
     (chosenSidePrices s (101/10000) o).2 now).2 = true ∧
  ∃ t, (p.consider_entry s m (chosenSidePrices s (101/10000) o).1
     (chosenSidePrices s (101/10000) o).2 now).1.active_trade = some t

/-- C7. Entry-price boundary: for every call that passes the active-trade,
capital, directional-label and streak/confidence guards — whichever of the
two directions the signal carries — a chosen-side price of exactly 0.01 is
refused (false, no trade, counter unchanged) while 0.0101 is accepted (a
trade is created); the other side's price `o` is arbitrary. -/
theorem entry_price_boundary (p : Portfolio) (s : Signal) (m : String) (o : ℚ) (now : String)
    (hact : p.active_trade = none) (hcap : ¬p.capital < 1)
    (hlab : s.label ∈ directionalLabels)
    (hcount : ¬(streakUpdate p.signal_streak (labelDirection s.label)).count < ENTRY_AFTER_N)
    (hconf : ¬s.confidence < MIN_CONFIDENCE) :
    EntryBoundaryProp p s m o now := by
  unfold EntryBoundaryProp chosenSidePrices
  by_cases hd : labelDirection s.label = "UP"
  · rw [consider_entry_directional m _ _ now hact hcap hlab,
      consider_entry_directional m _ _ now hact hcap hlab]
    rw [hd] at hcount
    norm_num [hd, hcount, hconf, hact]
  · rw [consider_entry_directional m _ _ now hact hcap hlab,
      consider_entry_directional m _ _ now hact hcap hlab]
    norm_num [hd, hcount, hconf, hact]

theorem entry_price_boundary_witness :
    EntryBoundaryProp { initialPortfolio with signal_streak := ⟨some "DOWN", 3⟩ }
      ⟨"DOWN", 99⟩ "m" (1/2) "t" :=
  entry_price_boundary { initialPortfolio with signal_streak := ⟨some "DOWN", 3⟩ }
    ⟨"DOWN", 99⟩ "m" (1/2) "t" rfl (by norm_num [initialPortfolio, INITIAL_CAPITAL])
    (by simp [directionalLabels])
    (by simp [streakUpdate, labelDirection, ENTRY_AFTER_N]) (by norm_num [MIN_CONFIDENCE])

/-- C9. Refusal atomicity: whenever `consider_entry` returns false, all of
capital, initial_capital, trade_pct, active_trade, closed_trades,
pnl_history and the trade counter are unchanged; only the signal streak may
move — untouched when refused by the active-trade or capital guard, reset
by a non-directional label, and advanced by `streakUpdate` on a directional
label (including the degenerate-price refusal, which keeps the advanced
streak). -/
theorem consider_entry_refusal_frame (p : Portfolio) (s : Signal) (m : String) (u d : ℚ)
    (now : String) (h : (p.consider_entry s m u d now).2 = false) :
    (p.consider_entry s m u d now).1.capital = p.capital ∧
    (p.consider_entry s m u d now).1.initial_capital = p.initial_capital ∧
    (p.consider_entry s m u d now).1.trade_pct = p.trade_pct ∧
    (p.consider_entry s m u d now).1.active_trade = p.active_trade ∧
    (p.consider_entry s m u d now).1.closed_trades = p.closed_trades ∧
    (p.consider_entry s m u d now).1.pnl_history = p.pnl_history ∧
    (p.consider_entry s m u d now).1.trade_counter = p.trade_counter ∧
    ((p.active_trade ≠ none ∨ p.capital < 1) →
      (p.consider_entry s m u d now).1.signal_streak = p.signal_streak) ∧
    (p.active_trade = none → ¬p.capital < 1 → s.label ∉ directionalLabels →
      (p.consider_entry s m u d now).1.signal_streak = ⟨none, 0⟩) ∧
    (p.active_trade = none → ¬p.capital < 1 → s.label ∈ directionalLabels →
      (p.consider_entry s m u d now).1.signal_streak =
        streakUpdate p.signal_streak (labelDirection s.label)) := by
  by_cases h1 : p.active_trade.isSome
  · rw [consider_entry_of_active h1]
    have h1' : p.active_trade ≠ none := by
      cases hh : p.active_trade <;> simp_all
    simp [h1']
  have hnone : p.active_trade = none := Option.not_isSome_iff_eq_none.mp h1
  by_cases h2 : p.capital < 1
  · rw [consider_entry_of_lowcap hnone h2]
    simp [h2]
  by_cases h3 : s.label ∈ directionalLabels
  case neg =>
    rw [consider_entry_nondirectional m u d now hnone h2 h3]
    simp [hnone, h2, h3]
  rw [consider_entry_directional m u d now hnone h2 h3] at h ⊢
  by_cases h4 : (streakUpdate p.signal_streak (labelDirection s.label)).count < ENTRY_AFTER_N
  · simp [h4, hnone, h2, h3]
  by_cases h5 : s.confidence < MIN_CONFIDENCE
  · simp [h4, h5, hnone, h2, h3]
  by_cases h6 : (if labelDirection s.label = "UP" then u else d) ≤ (100:ℚ)⁻¹
  · simp [h4, h5, h6, hnone, h2, h3]
  · simp [h4, h5, h6] at h

theorem consider_entry_refusal_frame_witness :
    (initialPortfolio.consider_entry ⟨"NEUTRAL", 50⟩ "m" (1/2) (1/2) "t").1.capital =
      initialPortfolio.capital ∧
    (initialPortfolio.consider_entry ⟨"NEUTRAL", 50⟩ "m" (1/2) (1/2) "t").1.initial_capital =
      initialPortfolio.initial_capital ∧
    (initialPortfolio.consider_entry ⟨"NEUTRAL", 50⟩ "m" (1/2) (1/2) "t").1.trade_pct =
      initialPortfolio.trade_pct ∧
    (initialPortfolio.consider_entry ⟨"NEUTRAL", 50⟩ "m" (1/2) (1/2) "t").1.active_trade =
      initialPortfolio.active_trade ∧
    (initialPortfolio.consider_entry ⟨"NEUTRAL", 50⟩ "m" (1/2) (1/2) "t").1.closed_trades =
      initialPortfolio.closed_trades ∧
    (initialPortfolio.consider_entry ⟨"NEUTRAL", 50⟩ "m" (1/2) (1/2) "t").1.pnl_history =
      initialPortfolio.pnl_history ∧
    (initialPortfolio.consider_entry ⟨"NEUTRAL", 50⟩ "m" (1/2) (1/2) "t").1.trade_counter =
      initialPortfolio.trade_counter ∧
    ((initialPortfolio.active_trade ≠ none ∨ initialPortfolio.capital < 1) →
      (initialPortfolio.consider_entry ⟨"NEUTRAL", 50⟩ "m" (1/2) (1/2) "t").1.signal_streak =
        initialPortfolio.signal_streak) ∧
    (initialPortfolio.active_trade = none → ¬initialPortfolio.capital < 1 →
      ("NEUTRAL" : String) ∉ directionalLabels →
      (initialPortfolio.consider_entry ⟨"NEUTRAL", 50⟩ "m" (1/2) (1/2) "t").1.signal_streak =
        ⟨none, 0⟩) ∧
    (initialPortfolio.active_trade = none → ¬initialPortfolio.capital < 1 →
      ("NEUTRAL" : String) ∈ directionalLabels →
      (initialPortfolio.consider_entry ⟨"NEUTRAL", 50⟩ "m" (1/2) (1/2) "t").1.signal_streak =
        streakUpdate initialPortfolio.signal_streak (labelDirection "NEUTRAL")) :=
  consider_entry_refusal_frame initialPortfolio ⟨"NEUTRAL", 50⟩ "m" (1/2) (1/2) "t"
    (by rw [consider_entry_nondirectional "m" (1/2) (1/2) "t" rfl
      (by norm_num [initialPortfolio, INITIAL_CAPITAL]) (by simp [directionalLabels])])

/-- The conclusion of the capital-conservation claim (C1), for a portfolio `p`
closing active trade `t` into resolved trade `t'`. -/
def ConservationProp (p : Portfolio) (t t' : Trade) (u d : ℚ) (f : Option Bool) : Prop :=
  (t'.status = "WIN" →
     t'.pnl = some (pyRound 4 (t.shares - t.bet_size)) ∧
     (p.close_trade u d f).1.capital =
       p.capital + t.bet_size + pyRound 4 (t.shares - t.bet_size)) ∧
  (t'.status = "LOSS" →
     t'.pnl = some (pyRound 4 (-t.bet_size)) ∧
     (p.close_trade u d f).1.capital = p.capital)

/-- C1. Capital conservation at resolution, for every reachable portfolio
state: a WIN adds `bet_size + pnl` to the capital with
`pnl = round(shares - bet_size, 4)`; a LOSS has `pnl = round(-bet_size, 4)`
and leaves the capital unchanged. -/
theorem capital_conservation (p : Portfolio) (t t' : Trade) (u d : ℚ) (f : Option Bool)
    (hr : Reachable p) (ht : p.active_trade = some t)
    (ht' : (p.close_trade u d f).2 = some t') :
    ConservationProp p t t' u d f := by
  obtain ⟨hc, hactinv⟩ := reachable_capInv hr
  obtain ⟨hb, hsh⟩ := hactinv t ht
  have hclose := close_trade_some u d f ht
  rw [hclose] at ht'
  simp only [Trade.close_fst, Trade.close_snd, Option.some.injEq] at ht'
  unfold ConservationProp
  rw [hclose]
  simp only [Trade.close_fst, Trade.close_snd]
  subst ht'
  cases hw : wonOf t u d f
  case false =>
    simp only [hw, Bool.false_eq_true, if_false]
    constructor
    · intro habs
      simp at habs
    intro _
    refine ⟨by simp, ?_⟩
    rw [pyRound_eq_self hb.neg]
    have : p.capital + t.bet_size + -t.bet_size = p.capital := by ring
    rw [this]
    exact pyRound_eq_self hc
  case true =>
    simp only [hw, if_true]
    constructor
    · intro _
      rw [mul_one]
      refine ⟨by simp, ?_⟩
      exact pyRound_eq_self ((hc.add hb).add (decMul_pyRound 4 _))
    · intro habs
      simp at habs

theorem capital_conservation_witness :
    ConservationProp demoPortfolio demoTrade
      { demoTrade with exit_price := some 1, pnl := some 2, status := "WIN" } 1 0 none := by
  have hpnl : pyRound 4 (2:ℚ) = 2 := pyRound_eval rfl 20000 (by norm_num)
  exact capital_conservation demoPortfolio demoTrade _ 1 0 none demoPortfolio_reachable
    demoPortfolio_active
    (by rw [close_trade_some 1 0 none demoPortfolio_active]
        simp only [Trade.close_fst, Option.some.injEq]
        norm_num [wonOf, demoTrade, hpnl])

/-- The conclusion of the pnl-history-discipline claim (C5). -/
def PnlHistoryProp (p : Portfolio) (u d : ℚ) (f : Option Bool) : Prop :=
  (p.close_trade u d f).1.pnl_history =
    p.pnl_history ++ [pyRound 4 ((p.close_trade u d f).1.capital - p.initial_capital)] ∧
  (∀ q : Portfolio, q.cancel_active_trade.pnl_history = q.pnl_history) ∧
  (∀ (q : Portfolio) (s : Signal) (m : String) (u' d' : ℚ) (now : String),
     (q.consider_entry s m u' d' now).1.pnl_history = q.pnl_history) ∧
  (∀ q : Portfolio, q.active_trade = none → q.close_trade u d f = (q, none))

/-- C5. pnl_history discipline: a resolving `close_trade` appends exactly one
element, equal to `round(capital - initial_capital, 4)` taken after the
capital update; `cancel_active_trade` and `consider_entry` never touch
`pnl_history`; a `close_trade` with no active trade changes nothing. -/
theorem pnl_history_discipline (p : Portfolio) (t : Trade) (u d : ℚ) (f : Option Bool)
    (ht : p.active_trade = some t) : PnlHistoryProp p u d f := by
  refine ⟨?_, ?_, ?_, ?_⟩
  · rw [close_trade_some u d f ht]
    simp only [List.append_cancel_left_eq, List.cons.injEq, and_true]
    exact pyRound_idem 4 _
  · intro q
    cases hact : q.active_trade with
    | none => rw [cancel_none hact]
    | some t0 => rw [cancel_some hact]
  · intro q s m u' d' now
    rcases consider_entry_shape q s m u' d' now with hs | hs | hs | hs <;> rw [hs]
  · intro q hq
    exact close_trade_none u d f hq

theorem pnl_history_discipline_witness : PnlHistoryProp demoPortfolio 1 0 none :=
  pnl_history_discipline demoPortfolio demoTrade 1 0 none demoPortfolio_active

/-- The conclusion of the close-trade-resolution claim (C6). -/
def CloseResolutionProp (p : Portfolio) (u d : ℚ) (f : Option Bool) : Prop :=
  (p.active_trade = none → p.close_trade u d f = (p, none)) ∧
  (∀ t, p.active_trade = some t →
    ∃ t', (p.close_trade u d f).2 = some t' ∧
      (t'.status = "WIN" ∨ t'.status = "LOSS") ∧
      (t'.status = "WIN" ↔ wonOf t u d f = true) ∧
      (∀ b, f = some b → wonOf t u d f = b) ∧
      (f = none → (wonOf t u d f = true ↔
        if t.direction = "UP" then 1/2 ≤ u else 1/2 ≤ d)) ∧
      t'.exit_price = some (if wonOf t u d f then (1:ℚ) else 0))

/-- C6. close_trade resolution rule: with no active trade it returns none and
changes nothing; otherwise a supplied `force_winner` alone decides the win,
an absent one infers it from whether the held side's final price is ≥ 0.5,
and the exit price is 1.0 on a win and 0.0 on a loss, independent of the
passed prices. -/
theorem close_trade_resolution (p : Portfolio) (u d : ℚ) (f : Option Bool) :
    CloseResolutionProp p u d f := by
  constructor
  · intro hq
    exact close_trade_none u d f hq
  intro t ht
  rw [close_trade_some u d f ht]
  simp only [Trade.close_fst]
  refine ⟨_, rfl, ?_, ?_, ?_, ?_, rfl⟩
  · cases wonOf t u d f <;> simp
  · cases wonOf t u d f <;> simp
  · intro b hb
    simp [wonOf, hb]
  · intro hb
    subst hb
    simp only [wonOf]
    split <;> simp

theorem close_trade_resolution_witness : CloseResolutionProp demoPortfolio 1 0 (some false) :=
  close_trade_resolution demoPortfolio 1 0 (some false)

/-- The portfolio after opening a trade and then cancelling it. -/
def cancelledPortfolio : Portfolio := demoPortfolio.cancel_active_trade

lemma cancelledPortfolio_eq : cancelledPortfolio =
    { initialPortfolio with
        trade_counter := 1
        closed_trades := [{ demoTrade with status := "CANCELLED" }]
        active_trade := none } := by
  rw [cancelledPortfolio, cancel_some demoPortfolio_active, demo4]
  simp [initialPortfolio]

/-- C4 counterexample: cancellation leaves `exit_price` and `pnl` null while
setting `status` to CANCELLED, so a reachable trade violates
`status = OPEN ⇔ exit_price = null`. -/
theorem trade_invariant_counterexample :
    Reachable cancelledPortfolio ∧
    ∃ t ∈ cancelledPortfolio.closed_trades,
      t.status ≠ "OPEN" ∧ t.exit_price = none ∧ t.pnl = none := by
  constructor
  · exact Reachable.cancel _ demoPortfolio_reachable
  · rw [cancelledPortfolio_eq]
    exact ⟨{ demoTrade with status := "CANCELLED" }, by simp, by simp [demoTrade], rfl, rfl⟩

/-- The conclusion of the amended trade-resolution claim (C4). -/
def TradeResolutionProp (p : Portfolio) : Prop :=
  (∀ t, p.active_trade = some t → t.status = "OPEN" ∧ t.exit_price = none ∧ t.pnl = none) ∧
  (∀ t ∈ p.closed_trades,
     t.status ≠ "OPEN" ∧
     ((t.status = "WIN" ∨ t.status = "LOSS") ↔ t.exit_price ≠ none) ∧
     ((t.status = "WIN" ∨ t.status = "LOSS") ↔ t.pnl ≠ none)) ∧
  (∀ (s : Signal) (m : String) (u d : ℚ) (now : String),
     ∃ l, (p.consider_entry s m u d now).1.closed_trades = p.closed_trades ++ l) ∧
  (∀ (u d : ℚ) (f : Option Bool),
     ∃ l, (p.close_trade u d f).1.closed_trades = p.closed_trades ++ l) ∧
  (∃ l, p.cancel_active_trade.closed_trades = p.closed_trades ++ l)

/-- C4 amended: in every reachable state the active trade is OPEN with null
`exit_price` and `pnl`; every closed trade has left OPEN, and is WIN or LOSS
iff `exit_price` is non-null iff `pnl` is non-null (CANCELLED keeps both
null); and every operation only ever appends to the closed-trade history, so
a trade's fields never change after resolution. -/
theorem trade_resolution_invariant (p : Portfolio) (hr : Reachable p) :
    TradeResolutionProp p := by
  obtain ⟨ha, hcl⟩ := reachable_tradeInv hr
  refine ⟨ha, hcl, ?_, ?_, ?_⟩
  · intro s m u d now
    rcases consider_entry_shape p s m u d now with hs | hs | hs | hs <;> rw [hs] <;>
      exact ⟨[], by simp⟩
  · intro u d f
    cases hact : p.active_trade with
    | none =>
      rw [close_trade_none u d f hact]
      exact ⟨[], by simp⟩
    | some t =>
      rw [close_trade_some u d f hact]
      exact ⟨_, rfl⟩
  · cases hact : p.active_trade with
    | none =>
      rw [cancel_none hact]
      exact ⟨[], by simp⟩
    | some t =>
      rw [cancel_some hact]
      exact ⟨_, rfl⟩

theorem trade_resolution_invariant_witness : TradeResolutionProp cancelledPortfolio :=
  trade_resolution_invariant cancelledPortfolio (Reachable.cancel _ demoPortfolio_reachable)

/-- The conclusion of the zero-pnl-exclusion claim (C10). -/
def StatsZeroProp (p : Portfolio) (t : Trade) : Prop :=
  ({ p with closed_trades := p.closed_trades ++ [t] } : Portfolio).closed_trades.filterMap
      truthyPnl = p.closed_trades.filterMap truthyPnl ∧
  ({ p with closed_trades := p.closed_trades ++ [t] } : Portfolio).stats.best_trade
    = p.stats.best_trade ∧
  ({ p with closed_trades := p.closed_trades ++ [t] } : Portfolio).stats.worst_trade
    = p.stats.worst_trade ∧
  ({ p with closed_trades := p.closed_trades ++ [t] } : Portfolio).closed_trades.filterMap
      Trade.pnl = p.closed_trades.filterMap Trade.pnl ++ [0] ∧
  ((∀ u ∈ p.closed_trades, u.pnl = none ∨ u.pnl = some 0) →
     p.stats.best_trade = 0 ∧ p.stats.worst_trade = 0)

/-- C10. Zero-pnl exclusion in stats: a resolved trade with pnl exactly 0 is
dropped by the truthiness filter feeding best_trade/worst_trade (adding such
a trade changes neither), while the realized-pnl filter keeps it (its 0 is
appended to the summed list); and when all closed trades have pnl None or 0,
best_trade = worst_trade = 0. -/
theorem stats_zero_pnl_exclusion (p : Portfolio) (t : Trade) (ht : t.pnl = some 0) :
    StatsZeroProp p t := by
  have htr : truthyPnl t = none := by simp [truthyPnl, ht]
  have h1 : (p.closed_trades ++ [t]).filterMap truthyPnl =
      p.closed_trades.filterMap truthyPnl := by
    simp [List.filterMap_append, htr]
  refine ⟨h1, ?_, ?_, ?_, ?_⟩
  · simp [Portfolio.stats, h1]
  · simp [Portfolio.stats, h1]
  · simp [List.filterMap_append, ht]
  · intro hall
    have hnil : p.closed_trades.filterMap truthyPnl = [] := by
      rw [List.filterMap_eq_nil_iff]
      intro a ha
      rcases hall a ha with h | h <;> simp [truthyPnl, h]
    have h0 : pyRound 4 (0:ℚ) = 0 := pyRound_eval rfl 0 (by norm_num)
    constructor <;> simp [Portfolio.stats, hnil, pyMax, pyMin, h0]

theorem stats_zero_pnl_exclusion_witness :
    StatsZeroProp cancelledPortfolio
      ⟨2, "m", "UP", 1/2, 4, 2, "t", some 0, some 0, "LOSS"⟩ :=
  stats_zero_pnl_exclusion cancelledPortfolio
    ⟨2, "m", "UP", 1/2, 4, 2, "t", some 0, some 0, "LOSS"⟩ rfl

/-- The conclusion of the load_state claim (C8). -/
def LoadStateProp : Prop :=
  (∀ (p : Portfolio) (db : DB), SysReachable p db → db.portfolio_state = none →
     db.load_state = ⟨100, 100, [0], 0, []⟩) ∧
  (∀ (db : DB) (snap : Snapshot), db.portfolio_state = some snap →
     (db.load_state).capital = snap.capital ∧
     (db.load_state).initial_capital = snap.initial_capital ∧
     (db.load_state).pnl_history = snap.pnl_history ∧
     (db.load_state).trade_counter = snap.trade_counter ∧
     List.Perm (db.load_state).closed_trades
       (db.trades.filter (fun t => decide (t.status ≠ "OPEN"))) ∧
     List.Sorted tradeIdLe (db.load_state).closed_trades)

/-- C8. load_state defaults and ordering: in every reachable program state in
which no portfolio snapshot has been persisted, `load_state` returns capital
100, initial_capital 100, pnl_history [0.0], trade_counter 0 and no closed
trades; with a persisted snapshot it returns the last-persisted values
together with exactly the persisted non-OPEN trades, sorted by id ascending. -/
theorem load_state_spec : LoadStateProp := by
  constructor
  · intro p db hreach hnone
    have hall := sysReachable_dbInv hreach hnone
    have hfilter : db.trades.filter (fun t => !decide (t.status = "OPEN")) = [] := by
      rw [List.filter_eq_nil_iff]
      intro a ha
      simp [hall a ha]
    simp [DB.load_state, hnone, hfilter]
  · intro db snap hsnap
    refine ⟨?_, ?_, ?_, ?_, ?_, ?_⟩ <;> simp [DB.load_state, hsnap]
    · exact List.perm_insertionSort _ _
    · exact List.sorted_insertionSort _ _

theorem load_state_spec_witness :
    DB.empty.load_state = ⟨100, 100, [0], 0, []⟩ ∧
    (DB.mk [] (some ⟨50, 100, [0, -50], 7⟩)).load_state.capital = 50 :=
  ⟨load_state_spec.1 initialPortfolio DB.empty SysReachable.base rfl,
   (load_state_spec.2 (DB.mk [] (some ⟨50, 100, [0, -50], 7⟩)) ⟨50, 100, [0, -50], 7⟩ rfl).1⟩

end Polysim
